import Mathlib

/- Shallow embedding of the CCTV multi-stream viewer (src/main.rs):
the doorbell event monitor poll body, the stream supervisor
(switch_stream and the wake/activity/idle-pause part of VideoApp::update),
the frame-drain consumer loop, the per-packet decode-worker loop
(run_decoder_loop), and the per-frame rescale/row-copy path.
Channels are modelled as message logs (the list of values sent on them);
time is in whole seconds (Instant.elapsed().as_secs()); the ffmpeg
decoder and scaler are external, so packets carry the frames the decoder
would yield and the scaler is an arbitrary function. -/

def WIDTH : Nat := 1280

def HEIGHT : Nat := 720

def SLEEP_TIME : Nat := 5

/- ===== Event monitor (DoorbellMonitor) ===== -/

/-- Alarm flag record of the Reolink GetEvents payload; the serde default
makes alarm_state 0 when the field is absent from the record. -/
structure AlarmStatus where
  alarm_state : Int
  deriving DecidableEq

/-- Nested AI event record: value.ai.people, optional. -/
structure AiEvents where
  people : Option AlarmStatus
  deriving DecidableEq

/-- Payload value record with its optional nested alarm flags. -/
structure ReolinkValue where
  ai : Option AiEvents
  md : Option AlarmStatus
  visitor : Option AlarmStatus
  deriving DecidableEq

/-- One event record of the GetEvents response array. -/
structure ReolinkResponse where
  value : ReolinkValue
  deriving DecidableEq

/-- Wake signals sent on wakeup_tx during one poll cycle of
DoorbellMonitor.listen_loop: none when the body failed to parse (the
error is only logged), else the first record of the array is inspected,
bouton and humain are computed with default 0, and a single wake is sent
exactly when bouton is 1 (humain is computed but never tested). -/
def doorbell_poll_wakes (parsed : Option (List ReolinkResponse)) : Nat :=
  match parsed with
  | none => 0
  | some data_list =>
    match data_list.head? with
    | none => 0
    | some event =>
      let bouton := (event.value.visitor.map AlarmStatus.alarm_state).getD 0
      let humain :=
        ((event.value.ai.bind AiEvents.people).map AlarmStatus.alarm_state).getD 0
      if bouton = 1 then 1 else 0

/- ===== Supervisor state (VideoApp) ===== -/

/-- Supervisor state: the fields of VideoApp that the control logic of
update, switch_stream and the idle policy read or write. Each control
channel is modelled by the log of boolean values sent on it. GUI-only
fields (textures, gallery, notification timer) are omitted. -/
structure VideoApp where
  current_url : String
  running_sender : List (String × List Bool)
  last_activity : Nat
  is_down : Bool
  deriving DecidableEq

/-- Channel registry lookup, the model of running_sender.get(url). -/
def getChan (reg : List (String × List Bool)) (url : String) : Option (List Bool) :=
  match reg with
  | [] => none
  | (u, log) :: rest => if u = url then some log else getChan rest url

/-- Sending b on the channel registered for url: append b to its log. -/
def sendTo (reg : List (String × List Bool)) (url : String) (b : Bool) :
    List (String × List Bool) :=
  match reg with
  | [] => []
  | (u, log) :: rest =>
    if u = url then (u, log ++ [b]) :: rest else (u, log) :: sendTo rest url b

/-- Sending b on every registered channel, the model of the for-loop over
running_sender.values(). -/
def sendAll (reg : List (String × List Bool)) (b : Bool) :
    List (String × List Bool) :=
  reg.map (fun p => (p.1, p.2 ++ [b]))

/-- VideoApp.switch_stream: send false to the currently selected camera's
channel if registered, send true to new_url's channel if registered, and
update current_url (the texture reset is GUI-only and omitted). -/
def switch_stream (s : VideoApp) (new_url : String) : VideoApp :=
  let reg1 :=
    match getChan s.running_sender s.current_url with
    | some _ => sendTo s.running_sender s.current_url false
    | none => s.running_sender
  let reg2 :=
    match getChan reg1 new_url with
    | some _ => sendTo reg1 new_url true
    | none => reg1
  { s with running_sender := reg2, current_url := new_url }

/-- Control part of VideoApp.update (one tick): first the wakeup_rx
try_recv branch, then the activity branch, then the idle-pause branch,
in source order. wake is whether a wake event was received this tick,
has_activity whether any input activity was seen, now the current time
in seconds. -/
def updateControl (s : VideoApp) (wake has_activity : Bool) (now : Nat) :
    VideoApp :=
  let s1 :=
    if wake then
      let sa := { s with last_activity := now }
      if sa.is_down then
        match getChan sa.running_sender sa.current_url with
        | some _ =>
          { sa with
            running_sender := sendTo sa.running_sender sa.current_url true,
            is_down := false }
        | none => sa
      else sa
    else s
  let s2 :=
    if has_activity then
      let sb :=
        if SLEEP_TIME ≤ now - s1.last_activity then
          match getChan s1.running_sender s1.current_url with
          | some _ =>
            { s1 with
              running_sender := sendTo s1.running_sender s1.current_url true,
              is_down := false }
          | none => s1
        else s1
      { sb with last_activity := now }
    else s1
  if SLEEP_TIME ≤ now - s2.last_activity ∧ s2.is_down = false then
    { s2 with
      running_sender := sendAll s2.running_sender false,
      is_down := !s2.running_sender.isEmpty }
  else s2

/-- A sequence of update ticks that carry no wake event and no input
activity, at the given times. -/
def updateTicks (s : VideoApp) (ticks : List Nat) : VideoApp :=
  ticks.foldl (fun st n => updateControl st false false n) s

/- ===== Frame channel consumer ===== -/

/-- A published frame: the packed pixel buffer and the source camera id. -/
structure VideoFrame where
  data : List Nat
  url : String
  deriving DecidableEq

/-- Consumer drain loop of VideoApp.update: pop every queued frame, skip
those whose url differs from current_url, keep the last matching one. -/
def drainLatest (current_url : String) :
    List VideoFrame → Option VideoFrame → Option VideoFrame
  | [], latest => latest
  | f :: rest, latest =>
    if current_url ≠ f.url then drainLatest current_url rest latest
    else drainLatest current_url rest (some f)

/- ===== Decode worker (run_decoder_loop) ===== -/

/-- Abstract handle for a decoded ffmpeg frame: the decoder is external,
so a frame is identified only by an id. -/
structure DecodedFrame where
  id : Nat
  deriving DecidableEq

/-- One iteration of the packet loop as seen by the worker: the outcome
of the non-blocking control poll (stop_rx.try_recv), the packet's stream
index and keyframe flag, whether decoder.send_packet would succeed, and
the frames receive_frame would then yield. -/
structure PacketEvent where
  ctrl : Option Bool
  streamIdx : Nat
  isKey : Bool
  sendOk : Bool
  frames : List DecodedFrame
  deriving DecidableEq

/-- Worker-local mutable state of one decode session. -/
structure DecodeState where
  active : Bool
  waiting : Bool
  deriving DecidableEq

/-- Result of one packet iteration: the new state, whether the packet was
fed to the decoder (send_packet called), and the frames published. -/
structure StepOut where
  state : DecodeState
  fed : Bool
  published : List DecodedFrame
  deriving DecidableEq

/-- Body of the for (stream, packet) loop of run_decoder_loop: poll the
control channel (a received true re-arms waiting to wait_key), then for
packets of the video stream: skip when inactive, skip non-key packets
while waiting, clear waiting, re-check the stream index and the waiting
flag as the source does, then feed the decoder and publish its frames. -/
def stepPacket (wait_key : Bool) (idx : Nat) (s0 : DecodeState)
    (p : PacketEvent) : StepOut :=
  let s :=
    match p.ctrl with
    | some state =>
      { active := state, waiting := if state then wait_key else s0.waiting }
    | none => s0
  if p.streamIdx = idx then
    if !s.active then
      ⟨s, false, []⟩
    else if s.waiting && !p.isKey then
      ⟨s, false, []⟩
    else
      let s1 : DecodeState := { s with waiting := false }
      if p.streamIdx = idx then
        if s1.waiting && !p.isKey then
          ⟨s1, false, []⟩
        else
          let s2 : DecodeState := { s1 with waiting := false }
          if p.sendOk then ⟨s2, true, p.frames⟩ else ⟨s2, true, []⟩
      else ⟨s1, false, []⟩
  else ⟨s, false, []⟩

/-- Cumulative result of a run of the packet loop. -/
structure RunResult where
  state : DecodeState
  fed : List PacketEvent
  published : List DecodedFrame
  deriving DecidableEq

/-- The packet loop over a finite trace of packet iterations: threads the
session state and collects the packets fed to the decoder and the frames
published, in order. -/
def runPackets (wait_key : Bool) (idx : Nat) :
    DecodeState → List PacketEvent → RunResult
  | s, [] => ⟨s, [], []⟩
  | s, p :: rest =>
    let o := stepPacket wait_key idx s p
    let r := runPackets wait_key idx o.state rest
    ⟨r.state, (if o.fed then [p] else []) ++ r.fed, o.published ++ r.published⟩

/-- Outcome of the decoder-setup sequence inside one connect attempt:
either all of codec-context creation, decoder opening and scaler creation
succeed, or one of them fails with an ffmpeg error (abstract code). -/
inductive SetupResult where
  | ok : SetupResult
  | err : Nat → SetupResult
  deriving DecidableEq

/-- Outcome of one input_with_dictionary attempt: open failure, or an
opened input with its best video stream index (none models the unwrap
panicking case), the setup outcome, and the packet trace until the
packet iterator ends. -/
inductive OpenResult where
  | failed : OpenResult
  | opened : Option Nat → SetupResult → List PacketEvent → OpenResult
  deriving DecidableEq

/-- How one iteration of the outer loop of run_decoder_loop ends. -/
inductive IterOutcome where
  | retryNoSleep : IterOutcome
  | sleepThenRetry : Nat → IterOutcome
  | panicked : IterOutcome
  | terminate : Nat → IterOutcome
  deriving DecidableEq

/-- One iteration of the outer loop of run_decoder_loop: an open failure
falls through the if-let and retries at once with no sleep; a missing
video stream panics on unwrap; a decoder-setup error propagates out of
the function through the question-mark operator, terminating the worker;
otherwise the packet loop runs to end-of-stream, the worker sleeps 5
seconds and reconnects. Returns the outcome, the active flag carried to
the next iteration, and the frames published. -/
def outerIteration (wait_key : Bool) (active : Bool) (conn : OpenResult) :
    IterOutcome × Bool × List DecodedFrame :=
  match conn with
  | .failed => (.retryNoSleep, active, [])
  | .opened none _ _ => (.panicked, active, [])
  | .opened (some _) (.err e) _ => (.terminate e, active, [])
  | .opened (some idx) .ok packets =>
    let r := runPackets wait_key idx { active := active, waiting := wait_key } packets
    (.sleepThenRetry 5, r.state.active, r.published)

/- ===== Per-frame rescale and row copy ===== -/

/-- Model of the frame_rgb produced by scaler.run: the plane-0 bytes, the
row stride in bytes, and the frame's width and height. -/
structure ScaledFrame where
  width : Nat
  height : Nat
  stride : Nat
  data : List Nat
  deriving DecidableEq

/-- Overwrite the slice of packed starting at dstStart of length len with
row, by take and drop; mirrors copy_from_slice on the well-formed buffers
the theorems assume. -/
def writeRow (packed : List Nat) (dstStart len : Nat) (row : List Nat) :
    List Nat :=
  packed.take dstStart ++ row ++ packed.drop (dstStart + len)

/-- The row-copy loop: for y in 0..h, copy the first w*3 bytes of source
row y (at stride intervals) to destination offset y*w*3, in loop order. -/
def copyRows (h w stride : Nat) (src packed : List Nat) : List Nat :=
  match h with
  | 0 => packed
  | k + 1 =>
    writeRow (copyRows k w stride src packed) (k * (w * 3)) (w * 3)
      ((src.drop (k * stride)).take (w * 3))

/-- The per-frame pixel path of run_decoder_loop as written: rescale,
read width and height from the result, rescale a second time, then run
the first row-copy loop (with the WIDTH and HEIGHT constants) and the
second row-copy loop (with the frame's width and height) on the reused
packed buffer. The published buffer is the final packed value. -/
def processFrameSource (scale : DecodedFrame → ScaledFrame)
    (f : DecodedFrame) (packed : List Nat) : List Nat :=
  let frame_rgb := scale f
  let width := frame_rgb.width
  let height := frame_rgb.height
  let frame_rgb2 := scale f
  let src := frame_rgb2.data
  let stride := frame_rgb2.stride
  let packed1 := copyRows HEIGHT WIDTH stride src packed
  copyRows height width stride src packed1

/-- Modelled from the spec: the tightly packed rows themselves — for each
of the h rows, exactly the first w*3 bytes of the strided source row,
concatenated in row order. -/
def packedRowsSpec (h w stride : Nat) (src : List Nat) : List Nat :=
  match h with
  | 0 => []
  | k + 1 =>
    packedRowsSpec k w stride src ++ (src.drop (k * stride)).take (w * 3)

/-- Modelled from the spec: a single rescale and a single packed-row copy
into the reused buffer. -/
def processFrameSingle (scale : DecodedFrame → ScaledFrame)
    (f : DecodedFrame) (packed : List Nat) : List Nat :=
  copyRows HEIGHT WIDTH (scale f).stride (scale f).data packed

/- ===== Helper lemmas ===== -/

theorem getChan_sendTo (reg : List (String × List Bool)) (url v : String)
    (b : Bool) :
    getChan (sendTo reg url b) v =
      if v = url then (getChan reg url).map (fun l => l ++ [b])
      else getChan reg v := by
  induction reg with
  | nil => by_cases hv : v = url <;> simp [sendTo, getChan, hv]
  | cons p rest ih =>
    obtain ⟨u, log⟩ := p
    by_cases hu : u = url
    · subst hu
      by_cases hv : v = u
      · subst hv; simp [sendTo, getChan]
      · have hv' : ¬u = v := fun h => hv h.symm
        simp [sendTo, getChan, hv, hv']
    · by_cases hv : u = v
      · subst hv
        simp [sendTo, getChan, hu]
      · simp [sendTo, getChan, hu, hv, ih]

theorem or_some_absorb {α : Type} (x : Option α) (a : α) (acc : Option α) :
    (x.or (some a)).or acc = x.or (some a) := by
  cases x <;> rfl

theorem getLast?_cons_or {α : Type} (a : α) (l : List α) :
    (a :: l).getLast? = l.getLast?.or (some a) := by
  induction l generalizing a with
  | nil => rfl
  | cons b bs ih =>
    rw [List.getLast?_cons_cons, ih b]
    exact (or_some_absorb bs.getLast? b (some a)).symm

theorem drainLatest_go (cur : String) (queue : List VideoFrame) :
    ∀ acc : Option VideoFrame,
    drainLatest cur queue acc =
      ((queue.filter (fun f => f.url == cur)).getLast?).or acc := by
  induction queue with
  | nil => intro acc; rfl
  | cons f rest ih =>
    intro acc
    by_cases h : cur = f.url
    · subst h
      simp only [drainLatest]
      rw [if_neg (fun hh => hh rfl), ih (some f)]
      have hb : (f.url == f.url) = true := by simp
      simp only [List.filter_cons, hb, if_true]
      rw [getLast?_cons_or, or_some_absorb]
    · have hb : (f.url == cur) = false := by
        simp only [beq_eq_false_iff_ne, ne_eq]
        exact fun hx => h hx.symm
      simp only [drainLatest]
      rw [if_pos h, ih acc]
      simp [List.filter_cons, hb]

/- ===== Claims about the event monitor ===== -/

/-- C1: the claim fails on the code (and the code contradicts its own log
message and its unused humain binding): a successfully parsed response
whose first record asserts only value.ai.people.alarm_state = 1 (visitor
absent, so it defaults to 0) emits no wake at all, though the claim
requires exactly one WakeEvent; the visitor flag alone does emit exactly
one. -/
theorem C1_ai_flag_never_wakes :
    doorbell_poll_wakes
        (some [⟨⟨some ⟨some ⟨1⟩⟩, none, none⟩⟩]) = 0
    ∧ doorbell_poll_wakes
        (some [⟨⟨none, none, some ⟨1⟩⟩⟩]) = 1 := by
  exact ⟨rfl, rfl⟩

/-- C10: only the first record of a parsed response is examined: the wake
count of any nonempty array equals that of its first record alone, so an
asserted flag in a later record never emits, and an empty array emits
nothing. -/
theorem C10_only_first_record (e : ReolinkResponse)
    (rest : List ReolinkResponse) :
    doorbell_poll_wakes (some (e :: rest)) = doorbell_poll_wakes (some [e])
    ∧ doorbell_poll_wakes (some []) = 0 := by
  exact ⟨rfl, rfl⟩

/- ===== Claims about the consumer drain loop ===== -/

/-- C4: the consumer drain retains exactly the newest queued frame whose
url equals the currently selected camera, and none when no queued frame
matches: the drain starting from an empty latest slot equals the last
element of the queue filtered to the selected camera id. -/
theorem C4_drain_keeps_newest_selected (cur : String)
    (queue : List VideoFrame) :
    drainLatest cur queue none =
      (queue.filter (fun f => f.url == cur)).getLast? := by
  rw [drainLatest_go cur queue none]
  cases (queue.filter (fun f => f.url == cur)).getLast? <;> rfl

/- ===== Claims about the supervisor ===== -/

/-- C3: switch_stream sends false on the channel registered for the
previously selected camera, true on the channel registered for new_url,
updates current_url to new_url, and touches no other channel; when
new_url is the previously selected camera itself, its single channel
receives false then true. -/
theorem C3_switch_stream (s : VideoApp) (new_url : String)
    (logCur logNew : List Bool)
    (hc : getChan s.running_sender s.current_url = some logCur)
    (hn : getChan s.running_sender new_url = some logNew) :
    (switch_stream s new_url).current_url = new_url
    ∧ (new_url = s.current_url →
        getChan (switch_stream s new_url).running_sender s.current_url =
          some (logCur ++ [false, true]))
    ∧ (new_url ≠ s.current_url →
        getChan (switch_stream s new_url).running_sender s.current_url =
          some (logCur ++ [false])
        ∧ getChan (switch_stream s new_url).running_sender new_url =
          some (logNew ++ [true]))
    ∧ ∀ u, u ≠ s.current_url → u ≠ new_url →
        getChan (switch_stream s new_url).running_sender u =
          getChan s.running_sender u := by
  by_cases hed : new_url = s.current_url
  · subst hed
    have h1 : getChan (sendTo s.running_sender s.current_url false)
        s.current_url = some (logCur ++ [false]) := by
      rw [getChan_sendTo]
      simp [hc]
    have hregs : (switch_stream s s.current_url).running_sender =
        sendTo (sendTo s.running_sender s.current_url false)
          s.current_url true := by
      simp only [switch_stream, hc, h1]
    have hcur : (switch_stream s s.current_url).current_url =
        s.current_url := by
      simp only [switch_stream, hc, h1]
    refine ⟨hcur, fun _ => ?_, fun hne => absurd rfl hne, fun u hu _ => ?_⟩
    · rw [hregs, getChan_sendTo]
      simp [h1, List.append_assoc]
    · rw [hregs, getChan_sendTo, if_neg hu, getChan_sendTo, if_neg hu]
  · have hed' : ¬s.current_url = new_url := fun hh => hed hh.symm
    have h1 : getChan (sendTo s.running_sender s.current_url false) new_url =
        some logNew := by
      rw [getChan_sendTo, if_neg hed, hn]
    have hregs : (switch_stream s new_url).running_sender =
        sendTo (sendTo s.running_sender s.current_url false) new_url true := by
      simp only [switch_stream, hc, h1]
    have hcur : (switch_stream s new_url).current_url = new_url := by
      simp only [switch_stream, hc, h1]
    refine ⟨hcur, fun he => absurd he hed, fun _ => ⟨?_, ?_⟩, fun u hu hn' => ?_⟩
    · rw [hregs, getChan_sendTo, if_neg hed', getChan_sendTo]
      simp [hc]
    · rw [hregs, getChan_sendTo, if_pos rfl, h1]
      rfl
    · rw [hregs, getChan_sendTo, if_neg hn', getChan_sendTo, if_neg hu]

/-- Witness for C3 at a concrete two-camera registry. -/
theorem C3_switch_stream_witness :
    getChan (VideoApp.mk "a" [("a", []), ("b", [])] 0 false).running_sender
        "a" = some []
    ∧ getChan (VideoApp.mk "a" [("a", []), ("b", [])] 0 false).running_sender
        "b" = some []
    ∧ (switch_stream (VideoApp.mk "a" [("a", []), ("b", [])] 0 false)
        "b").current_url = "b"
    ∧ getChan (switch_stream (VideoApp.mk "a" [("a", []), ("b", [])] 0 false)
        "b").running_sender "a" = some [false]
    ∧ getChan (switch_stream (VideoApp.mk "a" [("a", []), ("b", [])] 0 false)
        "b").running_sender "b" = some [true] := by
  have h := C3_switch_stream (VideoApp.mk "a" [("a", []), ("b", [])] 0 false)
    "b" [] [] (by decide) (by decide)
  exact ⟨by decide, by decide, h.1, (h.2.2.1 (by decide)).1,
    (h.2.2.1 (by decide)).2⟩

theorem updateControl_idle_fire (s : VideoApp) (n : Nat)
    (hdown : s.is_down = false) (hidle : SLEEP_TIME ≤ n - s.last_activity) :
    updateControl s false false n =
      { s with running_sender := sendAll s.running_sender false,
               is_down := !s.running_sender.isEmpty } := by
  simp [updateControl, hdown, hidle]

theorem updateControl_idle_noop (s : VideoApp) (n : Nat)
    (h : s.is_down = true ∨ (s.running_sender = [] ∧ s.is_down = false)) :
    updateControl s false false n = s := by
  obtain ⟨cu, reg, la, dn⟩ := s
  rcases h with h | ⟨h1, h2⟩
  · replace h : dn = true := h
    subst h
    simp [updateControl]
  · replace h1 : reg = [] := h1
    replace h2 : dn = false := h2
    subst h1
    subst h2
    by_cases hc : SLEEP_TIME ≤ n - la
    · simp [updateControl, hc, sendAll]
    · simp [updateControl, hc]

theorem updateTicks_noop (s : VideoApp) (ticks : List Nat)
    (h : s.is_down = true ∨ (s.running_sender = [] ∧ s.is_down = false)) :
    updateTicks s ticks = s := by
  induction ticks with
  | nil => rfl
  | cons n rest ih =>
    show updateTicks (updateControl s false false n) rest = s
    rw [updateControl_idle_noop s n h]
    exact ih

/-- C5: once the idle threshold has elapsed with no activity and no wake
event, one update tick appends false to every registered camera's log,
and any number of further quiet ticks change no log: the latched is_down
flag prevents the pause from being resent. -/
theorem C5_idle_pause_once (s : VideoApp) (n : Nat) (rest : List Nat)
    (hdown : s.is_down = false) (hidle : SLEEP_TIME ≤ n - s.last_activity) :
    (updateTicks s (n :: rest)).running_sender =
      sendAll s.running_sender false := by
  have hstep : updateTicks s (n :: rest) =
      updateTicks (updateControl s false false n) rest := rfl
  rw [hstep, updateControl_idle_fire s n hdown hidle, updateTicks_noop]
  cases hreg : s.running_sender with
  | nil => right; constructor <;> simp [sendAll, hreg]
  | cons p ps => left; simp [hreg]

/-- Witness for C5: a two-camera registry, idle since time 0, ticking at
times 5, 6 and 100 with no activity and no wake: each camera's channel
receives false exactly once. -/
theorem C5_idle_pause_once_witness :
    (VideoApp.mk "a" [("a", []), ("b", [])] 0 false).is_down = false
    ∧ SLEEP_TIME ≤ 5 - (VideoApp.mk "a" [("a", []), ("b", [])] 0 false).last_activity
    ∧ (updateTicks (VideoApp.mk "a" [("a", []), ("b", [])] 0 false)
        [5, 6, 100]).running_sender = [("a", [false]), ("b", [false])] := by
  refine ⟨rfl, by decide, ?_⟩
  rw [C5_idle_pause_once (VideoApp.mk "a" [("a", []), ("b", [])] 0 false)
    5 [6, 100] rfl (by decide)]
  rfl

/-- C6: a wake event received while idle-paused appends true to the
selected camera's channel only, resets the idle timer to the current
time, and clears the latch; every other camera's channel is untouched,
whether or not there was also local input activity this tick. -/
theorem C6_wake_resumes_selected (s : VideoApp) (activity : Bool)
    (now : Nat) (logc : List Bool)
    (hdown : s.is_down = true)
    (hreg : getChan s.running_sender s.current_url = some logc) :
    (updateControl s true activity now).last_activity = now
    ∧ (updateControl s true activity now).is_down = false
    ∧ getChan (updateControl s true activity now).running_sender
        s.current_url = some (logc ++ [true])
    ∧ ∀ u, u ≠ s.current_url →
        getChan (updateControl s true activity now).running_sender u =
          getChan s.running_sender u := by
  have hafter : updateControl s true activity now =
      { s with last_activity := now,
               running_sender := sendTo s.running_sender s.current_url true,
               is_down := false } := by
    cases activity with
    | false => simp [updateControl, hdown, hreg, SLEEP_TIME]
    | true => simp [updateControl, hdown, hreg, SLEEP_TIME]
  rw [hafter]
  refine ⟨rfl, rfl, ?_, fun u hu => ?_⟩
  · show getChan (sendTo s.running_sender s.current_url true) s.current_url =
      some (logc ++ [true])
    rw [getChan_sendTo]
    simp [hreg]
  · show getChan (sendTo s.running_sender s.current_url true) u =
      getChan s.running_sender u
    rw [getChan_sendTo, if_neg hu]

/-- Witness for C6: paused two-camera registry, wake at time 42: only the
selected camera "a" receives true, the timer is reset, the latch clears. -/
theorem C6_wake_resumes_selected_witness :
    (VideoApp.mk "a" [("a", [false]), ("b", [false])] 0 true).is_down = true
    ∧ getChan (VideoApp.mk "a" [("a", [false]), ("b", [false])] 0
        true).running_sender "a" = some [false]
    ∧ (updateControl (VideoApp.mk "a" [("a", [false]), ("b", [false])] 0 true)
        true false 42).last_activity = 42
    ∧ (updateControl (VideoApp.mk "a" [("a", [false]), ("b", [false])] 0 true)
        true false 42).is_down = false
    ∧ getChan (updateControl (VideoApp.mk "a" [("a", [false]), ("b", [false])]
        0 true) true false 42).running_sender "a" = some [false, true]
    ∧ getChan (updateControl (VideoApp.mk "a" [("a", [false]), ("b", [false])]
        0 true) true false 42).running_sender "b" = some [false] := by
  have h := C6_wake_resumes_selected
    (VideoApp.mk "a" [("a", [false]), ("b", [false])] 0 true) false 42
    [false] rfl (by decide)
  exact ⟨rfl, by decide, h.1, h.2.1, h.2.2.1, by
    rw [h.2.2.2 "b" (by decide)]; decide⟩

/- ===== Claims about the decode worker ===== -/

theorem stepPacket_waiting (idx : Nat) (s : DecodeState) (p : PacketEvent)
    (harm : p.ctrl = some true ∨ s.waiting = true)
    (hnk : ¬(p.streamIdx = idx ∧ p.isKey = true)) :
    (stepPacket true idx s p).published = []
    ∧ (stepPacket true idx s p).state.waiting = true := by
  obtain ⟨sa, sw⟩ := s
  obtain ⟨ctrl, si, ik, so, fr⟩ := p
  by_cases hsi : si = idx
  · have hik : ik = false := by
      cases ik
      · rfl
      · exact absurd ⟨hsi, rfl⟩ hnk
    subst hik
    rcases harm with h | h
    · replace h : ctrl = some true := h
      subst h
      simp [stepPacket, hsi]
    · replace h : sw = true := h
      subst h
      cases ctrl with
      | none => cases sa <;> simp [stepPacket, hsi]
      | some st => cases st <;> cases sa <;> simp [stepPacket, hsi]
  · rcases harm with h | h
    · replace h : ctrl = some true := h
      subst h
      simp [stepPacket, hsi]
    · replace h : sw = true := h
      subst h
      cases ctrl with
      | none => simp [stepPacket, hsi]
      | some st => cases st <;> simp [stepPacket, hsi]

theorem runPackets_waiting (idx : Nat) (trace : List PacketEvent) :
    ∀ s : DecodeState, s.waiting = true →
    (∀ q ∈ trace, ¬(q.streamIdx = idx ∧ q.isKey = true)) →
    (runPackets true idx s trace).published = []
    ∧ (runPackets true idx s trace).state.waiting = true := by
  induction trace with
  | nil => exact fun s hs _ => ⟨rfl, hs⟩
  | cons p rest ih =>
    intro s hs hk
    have hstep := stepPacket_waiting idx s p (Or.inr hs)
      (hk p (List.mem_cons_self p rest))
    have hrest := ih (stepPacket true idx s p).state hstep.2
      (fun q hq => hk q (List.mem_cons_of_mem p hq))
    simp only [runPackets]
    refine ⟨?_, hrest.2⟩
    rw [hstep.1, hrest.1]
    rfl

/-- C2 counterexample: a worker configured with has_to_wait_for_keyframe
= false that transitions from paused (active = false) to active via a
control-channel true publishes the decode of the very next packet even
though that packet is not a keyframe and no keyframe has been observed:
the claim fails for such workers. -/
theorem C2_counterexample :
    (DecodeState.mk false false).active = false
    ∧ (PacketEvent.mk (some true) 0 false true [DecodedFrame.mk 7]).ctrl =
        some true
    ∧ (PacketEvent.mk (some true) 0 false true [DecodedFrame.mk 7]).isKey =
        false
    ∧ (runPackets false 0 (DecodeState.mk false false)
        [PacketEvent.mk (some true) 0 false true
          [DecodedFrame.mk 7]]).published = [DecodedFrame.mk 7] := by
  exact ⟨rfl, rfl, rfl, by decide⟩

/-- C2 (amended): for a worker configured with has_to_wait_for_keyframe
= true, after a transition from paused to active no frame is published
until a keyframe packet of the video stream is observed: over any packet
trace that starts with the activating control signal and contains no
video-stream keyframe, nothing is published. -/
theorem C2_keyframe_resync (idx : Nat) (s : DecodeState) (p : PacketEvent)
    (rest : List PacketEvent)
    (hpaused : s.active = false) (hctrl : p.ctrl = some true)
    (hnokey : ∀ q ∈ p :: rest, ¬(q.streamIdx = idx ∧ q.isKey = true)) :
    (runPackets true idx s (p :: rest)).published = [] := by
  have hstep := stepPacket_waiting idx s p (Or.inl hctrl)
    (hnokey p (List.mem_cons_self p rest))
  have hrest := runPackets_waiting idx rest (stepPacket true idx s p).state
    hstep.2 (fun q hq => hnokey q (List.mem_cons_of_mem p hq))
  simp only [runPackets]
  rw [hstep.1, hrest.1]
  rfl

/-- Witness for C2: a paused worker receives true and then sees two
non-key video packets that would each decode to a frame; nothing is
published. -/
theorem C2_keyframe_resync_witness :
    (DecodeState.mk false false).active = false
    ∧ (PacketEvent.mk (some true) 0 false true [DecodedFrame.mk 5]).ctrl =
        some true
    ∧ (runPackets true 0 (DecodeState.mk false false)
        [PacketEvent.mk (some true) 0 false true [DecodedFrame.mk 5],
         PacketEvent.mk none 0 false true [DecodedFrame.mk 6]]).published
        = [] := by
  refine ⟨rfl, rfl, ?_⟩
  exact C2_keyframe_resync 0 (DecodeState.mk false false)
    (PacketEvent.mk (some true) 0 false true [DecodedFrame.mk 5])
    [PacketEvent.mk none 0 false true [DecodedFrame.mk 6]]
    rfl rfl (by decide)

theorem stepPacket_paused (wait_key : Bool) (idx : Nat) (s : DecodeState)
    (p : PacketEvent) (hactive : s.active = false)
    (hc : p.ctrl = none ∨ p.ctrl = some false) :
    (stepPacket wait_key idx s p).fed = false
    ∧ (stepPacket wait_key idx s p).published = []
    ∧ (stepPacket wait_key idx s p).state.active = false := by
  obtain ⟨sa, sw⟩ := s
  replace hactive : sa = false := hactive
  subst hactive
  obtain ⟨ctrl, si, ik, so, fr⟩ := p
  rcases hc with h | h
  · replace h : ctrl = none := h
    subst h
    by_cases hsi : si = idx <;> simp [stepPacket, hsi]
  · replace h : ctrl = some false := h
    subst h
    by_cases hsi : si = idx <;> simp [stepPacket, hsi]

/-- C8: while the control flag is and stays false, no packet of the trace
is fed to the decoder and no frame is published: a paused worker only
consumes its input. -/
theorem C8_paused_never_feeds (wait_key : Bool) (idx : Nat)
    (trace : List PacketEvent) :
    ∀ s : DecodeState, s.active = false →
    (∀ q ∈ trace, q.ctrl = none ∨ q.ctrl = some false) →
    (runPackets wait_key idx s trace).fed = []
    ∧ (runPackets wait_key idx s trace).published = []
    ∧ (runPackets wait_key idx s trace).state.active = false := by
  induction trace with
  | nil => exact fun s hs _ => ⟨rfl, rfl, hs⟩
  | cons p rest ih =>
    intro s hs hk
    have hstep := stepPacket_paused wait_key idx s p hs
      (hk p (List.mem_cons_self p rest))
    have hrest := ih (stepPacket wait_key idx s p).state hstep.2.2
      (fun q hq => hk q (List.mem_cons_of_mem p hq))
    simp only [runPackets]
    refine ⟨?_, ?_, hrest.2.2⟩
    · simp [hstep.1, hrest.1]
    · simp [hstep.2.1, hrest.2.1]

/-- Witness for C8: a paused worker sees a keyframe video packet and a
further packet alongside a control false; nothing is fed or published. -/
theorem C8_paused_never_feeds_witness :
    (DecodeState.mk false true).active = false
    ∧ (runPackets true 0 (DecodeState.mk false true)
        [PacketEvent.mk none 0 true true [DecodedFrame.mk 1],
         PacketEvent.mk (some false) 0 true true [DecodedFrame.mk 2]]).fed
        = []
    ∧ (runPackets true 0 (DecodeState.mk false true)
        [PacketEvent.mk none 0 true true [DecodedFrame.mk 1],
         PacketEvent.mk (some false) 0 true true
           [DecodedFrame.mk 2]]).published = [] := by
  have h := C8_paused_never_feeds true 0
    [PacketEvent.mk none 0 true true [DecodedFrame.mk 1],
     PacketEvent.mk (some false) 0 true true [DecodedFrame.mk 2]]
    (DecodeState.mk false true) rfl (by decide)
  exact ⟨rfl, h.1, h.2.1⟩

/-- C7 counterexample: the claim fails on the code in two ways: a fatal
decoder-setup error makes run_decoder_loop return through the
question-mark operator, terminating the worker instead of reconnecting,
and a stream-open failure is retried immediately with no backoff sleep. -/
theorem C7_counterexample :
    outerIteration true true
        (OpenResult.opened (some 0) (SetupResult.err 3) []) =
      (IterOutcome.terminate 3, true, [])
    ∧ outerIteration true true OpenResult.failed =
      (IterOutcome.retryNoSleep, true, []) := by
  exact ⟨rfl, rfl⟩

/-- C7 (amended): a stream-open failure retries at once with no sleep,
unbounded in attempts; whenever open and decoder setup succeed, the
packet loop runs to end-of-stream for every packet trace and the worker
sleeps a fixed 5 seconds before reconnecting; but a fatal decoder-setup
error terminates the worker loop. -/
theorem C7_loop_outcomes (wait_key active : Bool) (idx e : Nat)
    (packets : List PacketEvent) :
    (outerIteration wait_key active
        (OpenResult.opened (some idx) SetupResult.ok packets)).1 =
      IterOutcome.sleepThenRetry 5
    ∧ (outerIteration wait_key active OpenResult.failed).1 =
      IterOutcome.retryNoSleep
    ∧ (outerIteration wait_key active
        (OpenResult.opened (some idx) (SetupResult.err e) packets)).1 =
      IterOutcome.terminate e := by
  exact ⟨rfl, rfl, rfl⟩

/- ===== Claims about the per-frame pixel path ===== -/

theorem row_length (src : List Nat) (off len : Nat)
    (h : off + len ≤ src.length) :
    ((src.drop off).take len).length = len := by
  simp only [List.length_take, List.length_drop]
  omega

theorem packedRowsSpec_length (w stride : Nat) (src : List Nat) :
    ∀ h : Nat, h * stride ≤ src.length → w * 3 ≤ stride →
    (packedRowsSpec h w stride src).length = h * (w * 3) := by
  intro h
  induction h with
  | zero => intro _ _; simp [packedRowsSpec]
  | succ k ih =>
    intro hsrc hws
    have hsm : (k + 1) * stride = k * stride + stride := Nat.succ_mul k stride
    have hk : k * stride ≤ src.length := by omega
    have hrow : k * stride + w * 3 ≤ src.length := by omega
    simp only [packedRowsSpec, List.length_append, ih hk hws,
      row_length src (k * stride) (w * 3) hrow]
    have hsm2 : (k + 1) * (w * 3) = k * (w * 3) + w * 3 := Nat.succ_mul k (w * 3)
    omega

theorem take_append_of_length {α : Type} (l1 l2 : List α) (n : Nat)
    (h : l1.length = n) : (l1 ++ l2).take n = l1 := by
  subst h
  exact List.take_left l1 l2

theorem drop_append_of_length {α : Type} (l1 l2 : List α) (n m : Nat)
    (h : l1.length = n) : (l1 ++ l2).drop (n + m) = l2.drop m := by
  subst h
  induction l1 with
  | nil => simp
  | cons a t ih =>
    have hx : t.length + 1 + m = t.length + m + 1 := by omega
    simp only [List.cons_append, List.length_cons, hx, List.drop_succ_cons]
    exact ih

theorem copyRows_eq_spec (w stride : Nat) (src : List Nat) :
    ∀ (h : Nat) (packed : List Nat),
    h * stride ≤ src.length → w * 3 ≤ stride →
    h * (w * 3) ≤ packed.length →
    copyRows h w stride src packed =
      packedRowsSpec h w stride src ++ packed.drop (h * (w * 3)) := by
  intro h
  induction h with
  | zero => intro packed _ _ _; simp [copyRows, packedRowsSpec]
  | succ k ih =>
    intro packed hsrc hws hp
    have hsm : (k + 1) * stride = k * stride + stride := Nat.succ_mul k stride
    have hsm2 : (k + 1) * (w * 3) = k * (w * 3) + w * 3 := Nat.succ_mul k (w * 3)
    have hk : k * stride ≤ src.length := by omega
    have hkp : k * (w * 3) ≤ packed.length := by omega
    have hlen : (packedRowsSpec k w stride src).length = k * (w * 3) :=
      packedRowsSpec_length w stride src k hk hws
    rw [copyRows, ih packed hk hws hkp, writeRow,
      take_append_of_length _ _ _ hlen,
      drop_append_of_length _ _ _ (w * 3) hlen, List.drop_drop]
    have hidx : k * (w * 3) + w * 3 = (k + 1) * (w * 3) := by omega
    rw [hidx]
    simp [packedRowsSpec, List.append_assoc]

theorem copyRows_exact (h w stride : Nat) (src packed : List Nat)
    (hsrc : h * stride ≤ src.length) (hws : w * 3 ≤ stride)
    (hp : packed.length = h * (w * 3)) :
    copyRows h w stride src packed = packedRowsSpec h w stride src := by
  rw [copyRows_eq_spec w stride src h packed hsrc hws (by omega),
    ← hp, List.drop_length, List.append_nil]

/-- C9: with the scaler meeting its contract (WIDTH by HEIGHT output,
stride at least the packed row width, a full plane) and the reused packed
buffer at its allocated size, the duplicated rescale-and-copy path of the
source publishes exactly the tightly packed rows of one rescaled frame:
byte for byte what a single rescale with a single packed-row copy
produces. -/
theorem C9_double_copy_equals_single (scale : DecodedFrame → ScaledFrame)
    (f : DecodedFrame) (packed : List Nat)
    (hw : (scale f).width = WIDTH) (hh : (scale f).height = HEIGHT)
    (hstride : WIDTH * 3 ≤ (scale f).stride)
    (hdata : HEIGHT * (scale f).stride ≤ (scale f).data.length)
    (hp : packed.length = HEIGHT * (WIDTH * 3)) :
    processFrameSource scale f packed = processFrameSingle scale f packed
    ∧ processFrameSource scale f packed =
        packedRowsSpec HEIGHT WIDTH (scale f).stride (scale f).data := by
  have hfirst : copyRows HEIGHT WIDTH (scale f).stride (scale f).data packed
      = packedRowsSpec HEIGHT WIDTH (scale f).stride (scale f).data :=
    copyRows_exact HEIGHT WIDTH (scale f).stride (scale f).data packed
      hdata hstride hp
  have hspeclen : (packedRowsSpec HEIGHT WIDTH (scale f).stride
      (scale f).data).length = HEIGHT * (WIDTH * 3) :=
    packedRowsSpec_length WIDTH (scale f).stride (scale f).data HEIGHT
      hdata hstride
  have hsecond : copyRows HEIGHT WIDTH (scale f).stride (scale f).data
      (packedRowsSpec HEIGHT WIDTH (scale f).stride (scale f).data) =
      packedRowsSpec HEIGHT WIDTH (scale f).stride (scale f).data :=
    copyRows_exact _ _ _ _ _ hdata hstride hspeclen
  have hsource : processFrameSource scale f packed =
      packedRowsSpec HEIGHT WIDTH (scale f).stride (scale f).data := by
    show copyRows (scale f).height (scale f).width (scale f).stride
      (scale f).data
      (copyRows HEIGHT WIDTH (scale f).stride (scale f).data packed) = _
    rw [hw, hh, hfirst, hsecond]
  have hsingle : processFrameSingle scale f packed =
      packedRowsSpec HEIGHT WIDTH (scale f).stride (scale f).data := hfirst
  exact ⟨hsource.trans hsingle.symm, hsource⟩

/-- Witness for C9 at a concrete scaler output: a 1280 by 720 frame with
stride 3840 and a full zero plane, copied into the zero-initialized
packed buffer of 2764800 bytes. -/
theorem C9_double_copy_equals_single_witness :
    ((fun _ : DecodedFrame => ScaledFrame.mk 1280 720 3840
        (List.replicate 2764800 0)) (DecodedFrame.mk 0)).width = WIDTH
    ∧ ((fun _ : DecodedFrame => ScaledFrame.mk 1280 720 3840
        (List.replicate 2764800 0)) (DecodedFrame.mk 0)).height = HEIGHT
    ∧ WIDTH * 3 ≤ ((fun _ : DecodedFrame => ScaledFrame.mk 1280 720 3840
        (List.replicate 2764800 0)) (DecodedFrame.mk 0)).stride
    ∧ HEIGHT * ((fun _ : DecodedFrame => ScaledFrame.mk 1280 720 3840
        (List.replicate 2764800 0)) (DecodedFrame.mk 0)).stride ≤
        ((fun _ : DecodedFrame => ScaledFrame.mk 1280 720 3840
        (List.replicate 2764800 0)) (DecodedFrame.mk 0)).data.length
    ∧ (List.replicate 2764800 (0 : Nat)).length = HEIGHT * (WIDTH * 3)
    ∧ processFrameSource (fun _ : DecodedFrame => ScaledFrame.mk 1280 720
        3840 (List.replicate 2764800 0)) (DecodedFrame.mk 0)
        (List.replicate 2764800 0) =
      processFrameSingle (fun _ : DecodedFrame => ScaledFrame.mk 1280 720
        3840 (List.replicate 2764800 0)) (DecodedFrame.mk 0)
        (List.replicate 2764800 0) := by
  have hd : (List.replicate 2764800 (0 : Nat)).length = 2764800 :=
    List.length_replicate 2764800 0
  refine ⟨rfl, rfl, by decide, ?_, ?_, ?_⟩
  · show HEIGHT * 3840 ≤ (List.replicate 2764800 (0 : Nat)).length
    rw [hd]
    decide
  · rw [hd]
    decide
  · exact (C9_double_copy_equals_single
      (fun _ : DecodedFrame => ScaledFrame.mk 1280 720 3840
        (List.replicate 2764800 0))
      (DecodedFrame.mk 0) (List.replicate 2764800 0)
      rfl rfl (by decide)
      (by rw [show ((fun _ : DecodedFrame => ScaledFrame.mk 1280 720 3840
            (List.replicate 2764800 0)) (DecodedFrame.mk 0)).data.length =
            2764800 from hd]; decide)
      (by rw [hd]; decide)).1
